import Mathlib

/-! libspotify-sdl jukebox: audio bridge and playback state machine.

A shallow embedding of `src/jukebox.cpp`.  The process globals become one record
that every function takes and returns; the calls the program makes into the
streaming provider are appended to a log.  The provider itself (libspotify) and
the audio device (SDL) are external: what the program reads from the provider is
a parameter of the functions below.

Conventions.
* Pointers are handles (`Nat`); a possibly-NULL pointer is an `Option`.
* A byte buffer is a `List Nat`, one entry per `uint8_t`.
* `int` values are `Int`.  Overflow of the signed `g_track_index` is undefined in
  C and out of reach of any real playlist; its arithmetic is exact here.
* `double` values are exact rationals.
* The audio mutex is not modelled: each function body of the audio bridge and of
  the state machine runs as one atomic step.  The notify mutex is modelled in the
  section on the control loop, where the main thread runs statement by statement.
-/

namespace Jukebox

/-! ## Handles, provider calls and process globals -/

/-- Handle of a playlist (`sp_playlist*`, never NULL). -/
abbrev sp_playlist := Nat

/-- Handle of a track (`sp_track*`, never NULL). -/
abbrev sp_track := Nat

/-- One audio block (`uint8_t*` chunk), byte by byte. -/
abbrev Chunk := List Nat

/-- The calls into libspotify that the playback code makes, in program order:
the fetch `sp_playlist_track` (a query) and the four commands
`sp_session_player_unload`, `sp_session_player_load`, `sp_session_player_play`
and `sp_playlist_remove_tracks`.  Diagnostics printed to the console are not
recorded. -/
inductive Call where
  | playlist_track (pl : sp_playlist) (index : Int)
  | player_unload
  | player_load (t : sp_track)
  | player_play (play : Int)
  | playlist_remove_tracks (pl : Option sp_playlist) (tracks : List Int)
deriving DecidableEq, Repr

/-- Recognises the removal command `sp_playlist_remove_tracks`. -/
def Call.isRemove : Call → Bool
  | Call.playlist_remove_tracks _ _ => true
  | _ => false

/-- The global variables of `jukebox.cpp` (lines 49-68 and 95), with the log of
provider calls issued so far. -/
structure Globals where
  g_notify_do : Int
  g_playback_done : Int
  g_jukeboxlist : Option sp_playlist
  g_listname : List Nat
  g_remove_tracks : Int
  g_currenttrack : Option sp_track
  g_track_index : Int
  g_audio_queue : List Chunk
  calls : List Call
deriving DecidableEq, Repr

/-- State at program start for a target playlist name and deletion flag:
static storage is zero-initialised, the queue is empty. -/
def Globals.init (listname : List Nat) (remove_tracks : Int) : Globals :=
  { g_notify_do := 0
    g_playback_done := 0
    g_jukeboxlist := none
    g_listname := listname
    g_remove_tracks := remove_tracks
    g_currenttrack := none
    g_track_index := 0
    g_audio_queue := []
    calls := [] }

/-- What can stop a function other than returning: a failed `assert`, or a
memory access outside a buffer. -/
inductive Fault where
  | assert_failed
  | out_of_bounds
deriving DecidableEq, Repr

/-! ## SDL audio bridge (lines 78-176) -/

def FADE_IN_AUDIO_DURATION_SECS : Nat := 10

def SDL_AUDIO_SAMPLE_SIZE : Nat := 2

def SDL_AUDIO_SAMPLE_RATE : Nat := 44100

def SDL_AUDIO_CHANNELS : Nat := 2

def SDL_AUDIO_BUFFER_FRAMES : Nat := 2048

def SDL_AUDIO_REQUEST_SIZE : Nat :=
  SDL_AUDIO_BUFFER_FRAMES * SDL_AUDIO_SAMPLE_SIZE * SDL_AUDIO_CHANNELS

def MAX_REQUEST_BUFFER_COUNT : Nat :=
  (1 * SDL_AUDIO_SAMPLE_RATE) / SDL_AUDIO_BUFFER_FRAMES

/-- The `sp_audioformat` record passed to the delivery callback. -/
structure sp_audioformat where
  sample_type : Nat
  sample_rate : Int
  channels : Int
deriving DecidableEq, Repr

/-- Value of the enumerator in libspotify's `api.h` (the only sample type). -/
def SP_SAMPLETYPE_INT16_NATIVE_ENDIAN : Nat := 0

/-- Storage returned by `new uint8_t[n]`: `n` bytes of unspecified content
(a recognisable filler value stands for it). -/
def new_uint8 (n : Nat) : Chunk := List.replicate n 205

/-- C `memset(buf, c, n)`: the first `n` bytes become `c`. -/
def memset (buf : Chunk) (c : Nat) (n : Nat) : Option Chunk :=
  if buf.length < n then none else some (List.replicate n c ++ buf.drop n)

/-- C `memcpy(dst, src, n)`: the first `n` bytes of `dst` become those of `src`.
A negative count, or one larger than either buffer, is an out-of-bounds access. -/
def memcpy (dst src : Chunk) (n : Int) : Option Chunk :=
  if n < 0 ∨ (dst.length : Int) < n ∨ (src.length : Int) < n then none
  else some (src.take n.toNat ++ dst.drop n.toNat)

/-- Lines 100-140.  Returns the frame count reported to the provider and the new
globals. -/
def audio_delivery (s : Globals) (format : sp_audioformat) (frames : Chunk)
    (num_frames : Int) : Except Fault (Int × Globals) :=
  if num_frames = 0 then Except.ok (0, s)
  else if s.g_audio_queue.length > MAX_REQUEST_BUFFER_COUNT then Except.ok (0, s)
  else if format.sample_rate ≠ SDL_AUDIO_SAMPLE_RATE then Except.error Fault.assert_failed
  else if format.channels ≠ SDL_AUDIO_CHANNELS then Except.error Fault.assert_failed
  else if format.sample_type ≠ SP_SAMPLETYPE_INT16_NATIVE_ENDIAN then
    Except.error Fault.assert_failed
  else
    match memset (new_uint8 SDL_AUDIO_REQUEST_SIZE) 0 SDL_AUDIO_REQUEST_SIZE with
    | none => Except.error Fault.out_of_bounds
    | some zeroed =>
      match memcpy zeroed frames
          (num_frames * SDL_AUDIO_SAMPLE_SIZE * SDL_AUDIO_CHANNELS) with
      | none => Except.error Fault.out_of_bounds
      | some chunk =>
        Except.ok (SDL_AUDIO_BUFFER_FRAMES,
          { s with g_audio_queue := s.g_audio_queue ++ [chunk] })

/-- Conversion `int(x)` of a `double`: truncation toward zero. -/
def double_to_int (x : ℚ) : Int := if 0 ≤ x then ⌊x⌋ else ⌈x⌉

/-- Lines 148-151: the gain `volume` for elapsed time `elapsed` (seconds), with
`MAX` the value of SDL's `SDL_MIX_MAXVOLUME`. -/
def audio_mix_volume (MAX : Int) (elapsed : ℚ) : Int :=
  if elapsed < (FADE_IN_AUDIO_DURATION_SECS : ℚ) then
    double_to_int ((MAX : ℚ) * elapsed / (FADE_IN_AUDIO_DURATION_SECS : ℚ))
  else MAX

/-- Lines 142-162.  `clock` and `CLOCKS_PER_SEC` are what the C library reports.
Returns the new globals and, when a block was mixed, the block and the gain
handed to `SDL_MixAudio`. -/
def audio_mix (MAX : Int) (clock CLOCKS_PER_SEC : Int) (s : Globals) (len : Int) :
    Except Fault (Globals × Option (Chunk × Int)) :=
  if len ≠ SDL_AUDIO_REQUEST_SIZE then Except.error Fault.assert_failed
  else
    let elapsed : ℚ := (clock : ℚ) / (CLOCKS_PER_SEC : ℚ)
    let volume := audio_mix_volume MAX elapsed
    if s.g_playback_done = 0 ∧ s.g_audio_queue.length > 0 then
      match s.g_audio_queue with
      | [] => Except.ok (s, none)
      | chunk :: rest => Except.ok ({ s with g_audio_queue := rest }, some (chunk, volume))
    else Except.ok (s, none)

/-- The `while` loop of `audio_flush` (lines 168-173): pop until empty. -/
def audio_flush_loop : List Chunk → List Chunk
  | [] => []
  | _ :: rest => audio_flush_loop rest

/-- Lines 164-176. -/
def audio_flush (s : Globals) : Globals :=
  { s with g_audio_queue := audio_flush_loop s.g_audio_queue }

/-- One operation on the staging queue, with the arguments of its call. -/
inductive AudioOp where
  | deliver (format : sp_audioformat) (frames : Chunk) (num_frames : Int)
  | mix (MAX clock CLOCKS_PER_SEC len : Int)
  | flush

/-- Runs one queue operation. -/
def AudioOp.run (s : Globals) : AudioOp → Except Fault Globals
  | AudioOp.deliver format frames num_frames =>
    (audio_delivery s format frames num_frames).map Prod.snd
  | AudioOp.mix MAX clock cps len => (audio_mix MAX clock cps s len).map Prod.fst
  | AudioOp.flush => Except.ok (audio_flush s)

/-- Runs a sequence of queue operations, stopping at the first fault. -/
def run_audio_ops : List AudioOp → Globals → Except Fault Globals
  | [], s => Except.ok s
  | op :: ops, s =>
    match op.run s with
    | Except.error e => Except.error e
    | Except.ok s1 => run_audio_ops ops s1

/-- The format the audio device was opened with (lines 188-190). -/
def sdl_format : sp_audioformat :=
  { sample_type := SP_SAMPLETYPE_INT16_NATIVE_ENDIAN
    sample_rate := SDL_AUDIO_SAMPLE_RATE
    channels := SDL_AUDIO_CHANNELS }

/-! ## Playback state machine (lines 227-359, 386-395, 526-545, 585-599) -/

/-- What the program reads from libspotify at the time of a call: the answers of
`sp_playlist_num_tracks`, `sp_playlist_track` (NULL is `none`),
`sp_playlist_name` and `sp_track_error`.  The library is external, so these are
parameters of every function below. -/
structure Provider where
  sp_playlist_num_tracks : sp_playlist → Int
  sp_playlist_track : sp_playlist → Int → Option sp_track
  sp_playlist_name : sp_playlist → List Nat
  sp_track_error : sp_track → Nat

/-- Value of the enumerator `SP_ERROR_OK` in libspotify's `api.h`. -/
def SP_ERROR_OK : Nat := 0

/-- A provider given by tables: each playlist with its name and tracks, and the
tracks that report an error.  A position outside the playlist yields NULL. -/
def Provider.ofTables (playlists : List (sp_playlist × List Nat × List sp_track))
    (bad : List sp_track) : Provider :=
  { sp_playlist_num_tracks := fun pl =>
      match playlists.lookup pl with
      | some (_, ts) => (ts.length : Int)
      | none => 0
    sp_playlist_track := fun pl i =>
      match playlists.lookup pl with
      | some (_, ts) => if i < 0 then none else ts.get? i.toNat
      | none => none
    sp_playlist_name := fun pl =>
      match playlists.lookup pl with
      | some (name, _) => name
      | none => []
    sp_track_error := fun t => if t ∈ bad then 1 else SP_ERROR_OK }

/-- C `tolower` in the "C" locale, on a byte. -/
def tolower (c : Nat) : Nat := if 65 ≤ c ∧ c ≤ 90 then c + 32 else c

/-- C `strcasecmp` on two strings given by their bytes before the terminator:
the difference of the first pair of bytes that differ after `tolower`, the
terminator counting as 0. -/
def strcasecmp : List Nat → List Nat → Int
  | [], [] => 0
  | [], b :: _ => 0 - (tolower b : Int)
  | a :: _, [] => (tolower a : Int)
  | a :: as, b :: bs =>
    if tolower a = tolower b then strcasecmp as bs
    else (tolower a : Int) - (tolower b : Int)

/-- Records a call of `sp_session_player_unload`. -/
def sp_session_player_unload (s : Globals) : Globals :=
  { s with calls := s.calls ++ [Call.player_unload] }

/-- Records a call of `sp_session_player_load`. -/
def sp_session_player_load (s : Globals) (t : sp_track) : Globals :=
  { s with calls := s.calls ++ [Call.player_load t] }

/-- Records a call of `sp_session_player_play`. -/
def sp_session_player_play (s : Globals) (play : Int) : Globals :=
  { s with calls := s.calls ++ [Call.player_play play] }

/-- Records a call of `sp_playlist_remove_tracks`. -/
def sp_playlist_remove_tracks (s : Globals) (pl : Option sp_playlist)
    (tracks : List Int) : Globals :=
  { s with calls := s.calls ++ [Call.playlist_remove_tracks pl tracks] }

/-- Lines 227-269. -/
def try_jukebox_start (w : Provider) (s : Globals) : Globals :=
  match s.g_jukeboxlist with
  | none => s
  | some pl =>
    if w.sp_playlist_num_tracks pl = 0 then s
    else if w.sp_playlist_num_tracks pl < s.g_track_index then s
    else
      let t := w.sp_playlist_track pl s.g_track_index
      let s1 := { s with calls := s.calls ++ [Call.playlist_track pl s.g_track_index] }
      let s2 :=
        if s1.g_currenttrack ≠ none ∧ t ≠ s1.g_currenttrack then
          { sp_session_player_unload (audio_flush s1) with g_currenttrack := none }
        else s1
      match t with
      | none => s2
      | some tr =>
        if w.sp_track_error tr ≠ SP_ERROR_OK then s2
        else if s2.g_currenttrack = some tr then s2
        else
          sp_session_player_play
            (sp_session_player_load { s2 with g_currenttrack := some tr } tr) 1

/-- Lines 281-290. -/
def tracks_added (w : Provider) (s : Globals) (pl : sp_playlist)
    (_tracks : List sp_track) (_position : Int) : Globals :=
  if some pl ≠ s.g_jukeboxlist then s else try_jukebox_start w s

/-- The counting loop of `tracks_removed` (lines 308-310): `k` after scanning the
array, the index being compared as it stands before the subtraction. -/
def tracks_removed_loop (g_track_index : Int) : List Int → Int → Int
  | [], k => k
  | x :: rest, k => tracks_removed_loop g_track_index rest (if x < g_track_index then k + 1 else k)

/-- Lines 300-317; the array `tracks` carries its own length `num_tracks`. -/
def tracks_removed (w : Provider) (s : Globals) (pl : sp_playlist)
    (tracks : List Int) : Globals :=
  if some pl ≠ s.g_jukeboxlist then s
  else
    let k := tracks_removed_loop s.g_track_index tracks 0
    try_jukebox_start w { s with g_track_index := s.g_track_index - k }

/-- Lines 328-337. -/
def tracks_moved (w : Provider) (s : Globals) (pl : sp_playlist)
    (_tracks : List Int) (_new_position : Int) : Globals :=
  if some pl ≠ s.g_jukeboxlist then s else try_jukebox_start w s

/-- Lines 345-359. -/
def playlist_renamed (w : Provider) (s : Globals) (pl : sp_playlist) : Globals :=
  let name := w.sp_playlist_name pl
  if strcasecmp name s.g_listname = 0 then
    try_jukebox_start w { s with g_jukeboxlist := some pl, g_track_index := 0 }
  else if s.g_jukeboxlist = some pl then
    sp_session_player_unload { s with g_jukeboxlist := none, g_currenttrack := none }
  else s

/-- Lines 386-395 (registering the playlist callbacks is not recorded). -/
def playlist_added (w : Provider) (s : Globals) (pl : sp_playlist) : Globals :=
  if strcasecmp (w.sp_playlist_name pl) s.g_listname = 0 then
    try_jukebox_start w { s with g_jukeboxlist := some pl }
  else s

/-- Lines 526-529. -/
def metadata_updated (w : Provider) (s : Globals) : Globals :=
  try_jukebox_start w s

/-- Lines 537-545. -/
def play_token_lost (s : Globals) : Globals :=
  let s1 := audio_flush s
  if s1.g_currenttrack ≠ none then
    { sp_session_player_unload s1 with g_currenttrack := none }
  else s1

/-- Lines 585-599. -/
def track_ended (w : Provider) (s : Globals) : Globals :=
  if s.g_currenttrack ≠ none then
    let s1 := sp_session_player_unload { s with g_currenttrack := none }
    if s1.g_remove_tracks ≠ 0 then
      sp_playlist_remove_tracks s1 s1.g_jukeboxlist [0]
    else
      try_jukebox_start w { s1 with g_track_index := s1.g_track_index + 1 }
  else s

/-- Lines 509-515: the end-of-track callback raises the flag. -/
def end_of_track (s : Globals) : Globals :=
  { s with g_playback_done := 1 }

/-- Lines 689-692 of the control loop: the reaction to a raised flag. -/
def main_playback_done (w : Provider) (s : Globals) : Globals :=
  if s.g_playback_done ≠ 0 then
    { track_ended w s with g_playback_done := 0 }
  else s

/-- An event reaching the state machine, with the arguments of its callback. -/
inductive Event where
  | playlist_added (pl : sp_playlist)
  | playlist_renamed (pl : sp_playlist)
  | tracks_added (pl : sp_playlist) (tracks : List sp_track) (position : Int)
  | tracks_removed (pl : sp_playlist) (tracks : List Int)
  | tracks_moved (pl : sp_playlist) (tracks : List Int) (new_position : Int)
  | metadata_updated
  | end_of_track
  | play_token_lost

/-- Runs the code that handles one event; `w` is what the provider answers while
the handler runs.  End-of-track is the callback followed by the control loop
reaction. -/
def Event.handle (w : Provider) (s : Globals) : Event → Globals
  | Event.playlist_added pl => Jukebox.playlist_added w s pl
  | Event.playlist_renamed pl => Jukebox.playlist_renamed w s pl
  | Event.tracks_added pl tracks position => Jukebox.tracks_added w s pl tracks position
  | Event.tracks_removed pl tracks => Jukebox.tracks_removed w s pl tracks
  | Event.tracks_moved pl tracks new_position =>
    Jukebox.tracks_moved w s pl tracks new_position
  | Event.metadata_updated => Jukebox.metadata_updated w s
  | Event.end_of_track => main_playback_done w (Jukebox.end_of_track s)
  | Event.play_token_lost => Jukebox.play_token_lost s

/-- Runs a history: each event with the provider contents at its time. -/
def run_events : List (Provider × Event) → Globals → Globals
  | [], s => s
  | (w, e) :: rest, s => run_events rest (e.handle w s)

/-! ## Control loop and notify gate (lines 484-490, 509-515, 676-699)

The loop of `main` runs statement by statement on the main thread while the
provider's thread may run the callbacks `notify_main_thread` and `end_of_track`
in between.  Both callbacks take `g_notify_mutex` for their whole body, so each
is one step that needs the mutex to be free. -/

/-- Program points of the main thread in the loop of lines 678-699, named by the
statement that runs next. -/
inductive MainPc where
  | loop_top
  | cond_wait
  | cond_wait_timeout
  | clear_notify
  | unlock
  | test_done
  | call_track_ended
  | clear_done
  | process_events
  | lock
deriving DecidableEq, Repr

/-- Whether the main thread owns `g_notify_mutex` at a program point: from the
`SDL_mutexP` of lines 676/698 to the `SDL_mutexV` of line 687, except while it is
blocked inside `SDL_CondWait` / `SDL_CondWaitTimeout`, which release the mutex
for the time of the wait. -/
def MainPc.holds_mutex : MainPc → Bool
  | MainPc.loop_top => true
  | MainPc.clear_notify => true
  | MainPc.unlock => true
  | _ => false

/-- The process while the loop runs: the globals, the program point of the main
thread, whether the main thread owns `g_notify_mutex`, and the local
`next_timeout`. -/
structure Loop where
  globals : Globals
  pc : MainPc
  notify_mutex_held : Bool
  next_timeout : Int
deriving DecidableEq, Repr

/-- Whether a callback runs on the main thread, from inside
`sp_session_process_events`; `end_of_track` comes from the provider's thread. -/
def Event.on_main_thread : Event → Bool
  | Event.end_of_track => false
  | _ => true

/-- One step of the process.  `main_step` runs the next statement of the main
thread, `wake` lets a blocked wait return, `process_events` is the `do`-`while`
of lines 694-696 with the callbacks the provider dispatches in it and the timeout
it finally reports, and the two `cb_` steps are callbacks on the provider's
thread. -/
inductive Action where
  | main_step (w : Provider)
  | wake
  | process_events (history : List (Provider × Event)) (next_timeout : Int)
  | cb_notify_main_thread
  | cb_end_of_track

/-- Lines 484-490: sets the work-pending flag (under the mutex). -/
def notify_main_thread (s : Globals) : Globals :=
  { s with g_notify_do := 1 }

/-- The statement at the current program point of the main thread (lines
679-698); `none` where the thread is blocked or needs the provider. -/
def main_step (w : Provider) (l : Loop) : Option Loop :=
  match l.pc with
  | MainPc.loop_top =>
    if l.next_timeout = 0 then
      if l.globals.g_notify_do = 0 ∧ l.globals.g_playback_done = 0 then
        some { l with pc := MainPc.cond_wait, notify_mutex_held := false }
      else some { l with pc := MainPc.clear_notify }
    else some { l with pc := MainPc.cond_wait_timeout, notify_mutex_held := false }
  | MainPc.cond_wait => none
  | MainPc.cond_wait_timeout => none
  | MainPc.clear_notify =>
    some { l with globals := { l.globals with g_notify_do := 0 }, pc := MainPc.unlock }
  | MainPc.unlock => some { l with pc := MainPc.test_done, notify_mutex_held := false }
  | MainPc.test_done =>
    if l.globals.g_playback_done ≠ 0 then some { l with pc := MainPc.call_track_ended }
    else some { l with pc := MainPc.process_events }
  | MainPc.call_track_ended =>
    some { l with globals := track_ended w l.globals, pc := MainPc.clear_done }
  | MainPc.clear_done =>
    some { l with globals := { l.globals with g_playback_done := 0 },
                  pc := MainPc.process_events }
  | MainPc.process_events => none
  | MainPc.lock =>
    if l.notify_mutex_held then none
    else some { l with pc := MainPc.loop_top, notify_mutex_held := true }

/-- Runs one step; `none` when the step is not enabled in the state. -/
def Loop.step (l : Loop) : Action → Option Loop
  | Action.main_step w => main_step w l
  | Action.wake =>
    match l.pc with
    | MainPc.cond_wait => some { l with pc := MainPc.loop_top, notify_mutex_held := true }
    | MainPc.cond_wait_timeout =>
      some { l with pc := MainPc.clear_notify, notify_mutex_held := true }
    | _ => none
  | Action.process_events history next_timeout =>
    if l.pc = MainPc.process_events ∧ next_timeout ≠ 0 ∧
        history.all (fun we => we.2.on_main_thread) then
      some { l with globals := run_events history l.globals, pc := MainPc.lock,
                    next_timeout := next_timeout }
    else none
  | Action.cb_notify_main_thread =>
    if l.notify_mutex_held then none
    else some { l with globals := notify_main_thread l.globals }
  | Action.cb_end_of_track =>
    if l.notify_mutex_held then none
    else some { l with globals := end_of_track l.globals }

/-- Runs a schedule of steps from a state; `none` when one is not enabled. -/
def Loop.run : List Action → Loop → Option Loop
  | [], l => some l
  | a :: rest, l =>
    match l.step a with
    | none => none
    | some l1 => Loop.run rest l1

/-! ## Staging queue: delivery and capacity -/

theorem memset_new_uint8 (n : Nat) : memset (new_uint8 n) 0 n = some (List.replicate n 0) := by
  simp [memset, new_uint8]

/-- The block built by an accepted delivery: the delivered bytes, then zeros up
to the block size. -/
def delivered_chunk (frames : Chunk) (num_frames : Int) : Chunk :=
  frames.take (num_frames * 4).toNat ++
    List.replicate (SDL_AUDIO_REQUEST_SIZE - (num_frames * 4).toNat) 0

theorem audio_delivery_accept (s : Globals) (format : sp_audioformat) (frames : Chunk)
    (num_frames : Int)
    (hrate : format.sample_rate = SDL_AUDIO_SAMPLE_RATE)
    (hchan : format.channels = SDL_AUDIO_CHANNELS)
    (htype : format.sample_type = SP_SAMPLETYPE_INT16_NATIVE_ENDIAN)
    (hpos : 0 < num_frames) (hle : num_frames ≤ SDL_AUDIO_BUFFER_FRAMES)
    (hbuf : num_frames * 4 ≤ frames.length)
    (hq : s.g_audio_queue.length ≤ MAX_REQUEST_BUFFER_COUNT) :
    audio_delivery s format frames num_frames =
      Except.ok ((SDL_AUDIO_BUFFER_FRAMES : Int),
        { s with g_audio_queue := s.g_audio_queue ++ [delivered_chunk frames num_frames] }) := by
  have hne : num_frames ≠ 0 := by omega
  have hq2 : ¬ s.g_audio_queue.length > MAX_REQUEST_BUFFER_COUNT := by omega
  have hmul : num_frames * (SDL_AUDIO_SAMPLE_SIZE : Int) * (SDL_AUDIO_CHANNELS : Int)
      = num_frames * 4 := by
    simp only [SDL_AUDIO_SAMPLE_SIZE, SDL_AUDIO_CHANNELS]; push_cast; ring
  have hcpy : memcpy (List.replicate SDL_AUDIO_REQUEST_SIZE 0) frames (num_frames * 4)
      = some (delivered_chunk frames num_frames) := by
    have h1 : ¬ (num_frames * 4 < 0 ∨
        ((List.replicate SDL_AUDIO_REQUEST_SIZE 0).length : Int) < num_frames * 4 ∨
        (frames.length : Int) < num_frames * 4) := by
      simp only [List.length_replicate, SDL_AUDIO_REQUEST_SIZE, SDL_AUDIO_BUFFER_FRAMES,
        SDL_AUDIO_SAMPLE_SIZE, SDL_AUDIO_CHANNELS] at hle ⊢
      push_cast at hle ⊢
      omega
    simp only [memcpy, if_neg h1, delivered_chunk, List.drop_replicate]
  unfold audio_delivery
  rw [if_neg hne, if_neg hq2, if_neg (not_not.mpr hrate), if_neg (not_not.mpr hchan),
    if_neg (not_not.mpr htype), memset_new_uint8]
  simp only [hmul, hcpy]

theorem run_audio_ops_deliver_replicate (frames : Chunk) (hbuf : 4 ≤ frames.length) :
    ∀ (k : Nat) (s : Globals), s.g_audio_queue.length + k ≤ MAX_REQUEST_BUFFER_COUNT + 1 →
      ∃ s1, run_audio_ops (List.replicate k (AudioOp.deliver sdl_format frames 1)) s
          = Except.ok s1 ∧
        s1.g_audio_queue.length = s.g_audio_queue.length + k ∧ s1.calls = s.calls
  | 0, s, _ => ⟨s, rfl, rfl, rfl⟩
  | k + 1, s, h => by
    have hq : s.g_audio_queue.length ≤ MAX_REQUEST_BUFFER_COUNT := by omega
    have hstep := audio_delivery_accept s sdl_format frames 1 rfl rfl rfl (by decide)
      (by decide) (by omega) hq
    obtain ⟨s1, h1, h2, h3⟩ := run_audio_ops_deliver_replicate frames hbuf k
      { s with g_audio_queue := s.g_audio_queue ++ [delivered_chunk frames 1] }
      (by simp only [List.length_append, List.length_singleton]; omega)
    refine ⟨s1, ?_, ?_, h3⟩
    · simp only [List.replicate_succ, run_audio_ops, AudioOp.run, hstep, Except.map]
      exact h1
    · rw [h2]; simp only [List.length_append, List.length_singleton]; omega

theorem audio_flush_loop_eq_nil (q : List Chunk) : audio_flush_loop q = [] := by
  induction q with
  | nil => rfl
  | cons _ rest ih => simpa [audio_flush_loop] using ih

theorem audio_delivery_length (s s1 : Globals) (format : sp_audioformat) (frames : Chunk)
    (num_frames r : Int) (h : audio_delivery s format frames num_frames = Except.ok (r, s1)) :
    s1 = s ∨ (s.g_audio_queue.length ≤ MAX_REQUEST_BUFFER_COUNT ∧
      s1.g_audio_queue.length = s.g_audio_queue.length + 1) := by
  unfold audio_delivery at h
  split_ifs at h with h0 hfull
  · simp only [Except.ok.injEq, Prod.mk.injEq] at h
    exact Or.inl h.2.symm
  · simp only [Except.ok.injEq, Prod.mk.injEq] at h
    exact Or.inl h.2.symm
  · split at h
    · exact absurd h (by simp)
    · split at h
      · exact absurd h (by simp)
      · simp only [Except.ok.injEq, Prod.mk.injEq] at h
        refine Or.inr ⟨by omega, ?_⟩
        rw [← h.2]
        simp

theorem audio_mix_length (MAX clock cps len : Int) (s s1 : Globals)
    (out : Option (Chunk × Int)) (h : audio_mix MAX clock cps s len = Except.ok (s1, out)) :
    s1.g_audio_queue.length ≤ s.g_audio_queue.length := by
  unfold audio_mix at h
  split_ifs at h with hlen hpop
  · split at h
    · simp only [Except.ok.injEq, Prod.mk.injEq] at h
      rw [← h.1]
    · rename_i chunk rest hq
      simp only [Except.ok.injEq, Prod.mk.injEq] at h
      rw [← h.1, hq]
      simp
  · simp only [Except.ok.injEq, Prod.mk.injEq] at h
    rw [← h.1]

/-- The bound the code keeps: along every sequence of deliver, mix and flush
operations that runs to completion, the queue never holds more than
`MAX_REQUEST_BUFFER_COUNT + 1` blocks. -/
theorem audio_queue_length_le_succ_max :
    ∀ (ops : List AudioOp) (s s1 : Globals),
      s.g_audio_queue.length ≤ MAX_REQUEST_BUFFER_COUNT + 1 →
      run_audio_ops ops s = Except.ok s1 →
      s1.g_audio_queue.length ≤ MAX_REQUEST_BUFFER_COUNT + 1
  | [], s, s1, hs, h => by
    simp only [run_audio_ops, Except.ok.injEq] at h
    rw [← h]; exact hs
  | op :: ops, s, s1, hs, h => by
    simp only [run_audio_ops] at h
    split at h
    · exact absurd h (by simp)
    · rename_i s2 hop
      refine audio_queue_length_le_succ_max ops s2 s1 ?_ h
      cases op with
      | deliver format frames num_frames =>
        simp only [AudioOp.run] at hop
        cases hd : audio_delivery s format frames num_frames with
        | error e => rw [hd] at hop; exact absurd hop (by simp [Except.map])
        | ok v =>
          obtain ⟨r, s3⟩ := v
          rw [hd] at hop
          simp only [Except.map, Except.ok.injEq] at hop
          subst hop
          rcases audio_delivery_length s s3 format frames num_frames r hd with h1 | ⟨h1, h2⟩
          · rw [h1]; exact hs
          · omega
      | mix MAX clock cps len =>
        simp only [AudioOp.run] at hop
        cases hm : audio_mix MAX clock cps s len with
        | error e => rw [hm] at hop; exact absurd hop (by simp [Except.map])
        | ok v =>
          obtain ⟨s3, out⟩ := v
          rw [hm] at hop
          simp only [Except.map, Except.ok.injEq] at hop
          subst hop
          have := audio_mix_length MAX clock cps len s s3 out hm
          omega
      | flush =>
        simp only [AudioOp.run, Except.ok.injEq] at hop
        rw [← hop]
        simp [audio_flush, audio_flush_loop_eq_nil]

/-- Claim C1, evaluated on the code: 21 one-frame deliveries into the empty queue
fill it to `MAX_REQUEST_BUFFER_COUNT = 21` blocks, and the next delivery is still
accepted: it returns 2048 and the queue then holds 22 blocks. -/
theorem audio_delivery_accepts_at_max :
    MAX_REQUEST_BUFFER_COUNT = 21 ∧
    ∃ s21 s22 : Globals,
      run_audio_ops (List.replicate 21 (AudioOp.deliver sdl_format [1, 0, 2, 0] 1))
        (Globals.init [] 0) = Except.ok s21 ∧
      s21.g_audio_queue.length = 21 ∧
      audio_delivery s21 sdl_format [1, 0, 2, 0] 1 = Except.ok (2048, s22) ∧
      s22.g_audio_queue.length = 22 := by
  refine ⟨by decide, ?_⟩
  obtain ⟨s21, h1, h2, _⟩ := run_audio_ops_deliver_replicate [1, 0, 2, 0] (by decide) 21
    (Globals.init [] 0) (by decide)
  have hlen : s21.g_audio_queue.length = 21 := by
    rw [h2]; rfl
  have hacc := audio_delivery_accept s21 sdl_format [1, 0, 2, 0] 1 rfl rfl rfl (by decide)
    (by decide) (by decide) (by rw [hlen]; decide)
  refine ⟨s21, _, h1, hlen, hacc, ?_⟩
  simp only [List.length_append, List.length_singleton, hlen]

/-- Claim C2: an accepted delivery of `0 < num_frames <= 2048` frames in the
device format returns the full block size 2048 and appends exactly one block
behind the blocks already queued; the block has the full size of 2048 stereo
16-bit frames, starts with the delivered frames and is zero after them. -/
theorem audio_delivery_appends_padded_block (s : Globals) (format : sp_audioformat)
    (frames : Chunk) (num_frames : Int)
    (hrate : format.sample_rate = SDL_AUDIO_SAMPLE_RATE)
    (hchan : format.channels = SDL_AUDIO_CHANNELS)
    (htype : format.sample_type = SP_SAMPLETYPE_INT16_NATIVE_ENDIAN)
    (hpos : 0 < num_frames) (hle : num_frames ≤ SDL_AUDIO_BUFFER_FRAMES)
    (hbuf : num_frames * 4 ≤ frames.length)
    (hq : s.g_audio_queue.length ≤ MAX_REQUEST_BUFFER_COUNT) :
    ∃ chunk : Chunk,
      audio_delivery s format frames num_frames =
        Except.ok (2048, { s with g_audio_queue := s.g_audio_queue ++ [chunk] }) ∧
      (s.g_audio_queue ++ [chunk]).length = s.g_audio_queue.length + 1 ∧
      chunk.length = SDL_AUDIO_BUFFER_FRAMES * SDL_AUDIO_CHANNELS * SDL_AUDIO_SAMPLE_SIZE ∧
      chunk.take (num_frames.toNat * 4) = frames.take (num_frames.toNat * 4) ∧
      ∀ i : Nat, num_frames.toNat * 4 ≤ i → i < chunk.length → chunk.get? i = some 0 := by
  have hacc := audio_delivery_accept s format frames num_frames hrate hchan htype hpos hle
    hbuf hq
  have hk : (num_frames * 4).toNat = num_frames.toNat * 4 := by omega
  have hk2 : num_frames.toNat * 4 ≤ frames.length := by omega
  have hk3 : num_frames.toNat * 4 ≤ 8192 := by
    simp only [SDL_AUDIO_BUFFER_FRAMES] at hle; push_cast at hle; omega
  have htake : (frames.take (num_frames.toNat * 4)).length = num_frames.toNat * 4 := by
    rw [List.length_take]; omega
  refine ⟨delivered_chunk frames num_frames, hacc, ?_, ?_, ?_, ?_⟩
  · simp
  · simp only [delivered_chunk, hk, List.length_append, htake, List.length_replicate,
      SDL_AUDIO_REQUEST_SIZE, SDL_AUDIO_BUFFER_FRAMES, SDL_AUDIO_SAMPLE_SIZE,
      SDL_AUDIO_CHANNELS]
    omega
  · simp only [delivered_chunk, hk]
    rw [List.take_append_of_le_length (by rw [htake]), List.take_take, Nat.min_self]
  · intro i hi hlt
    simp only [delivered_chunk, hk, List.length_append, htake, List.length_replicate] at hlt ⊢
    rw [List.get?_eq_getElem?, List.getElem?_append_right (by rw [htake]; exact hi), htake,
      List.getElem?_replicate]
    rw [if_pos (by omega)]

/-- Witness for C2: one frame `[1, 0, 2, 0]` delivered into the empty queue. -/
theorem audio_delivery_appends_padded_block_witness :
    (sdl_format.sample_rate = SDL_AUDIO_SAMPLE_RATE ∧
      sdl_format.channels = SDL_AUDIO_CHANNELS ∧
      sdl_format.sample_type = SP_SAMPLETYPE_INT16_NATIVE_ENDIAN ∧
      (0 : Int) < 1 ∧ (1 : Int) ≤ SDL_AUDIO_BUFFER_FRAMES ∧
      (1 : Int) * 4 ≤ ([1, 0, 2, 0] : Chunk).length ∧
      (Globals.init [] 0).g_audio_queue.length ≤ MAX_REQUEST_BUFFER_COUNT) ∧
    ∃ chunk : Chunk,
      audio_delivery (Globals.init [] 0) sdl_format [1, 0, 2, 0] 1 =
        Except.ok (2048, { Globals.init [] 0 with g_audio_queue := [] ++ [chunk] }) ∧
      (([] : List Chunk) ++ [chunk]).length = 0 + 1 ∧
      chunk.length = SDL_AUDIO_BUFFER_FRAMES * SDL_AUDIO_CHANNELS * SDL_AUDIO_SAMPLE_SIZE ∧
      chunk.take ((1 : Int).toNat * 4) = [1, 0, 2, 0] ∧
      ∀ i : Nat, (1 : Int).toNat * 4 ≤ i → i < chunk.length → chunk.get? i = some 0 :=
  ⟨⟨rfl, rfl, rfl, by decide, by decide, by decide, by decide⟩,
    audio_delivery_appends_padded_block (Globals.init [] 0) sdl_format [1, 0, 2, 0] 1
      rfl rfl rfl (by decide) (by decide) (by decide) (by decide)⟩

/-! ## Fade gain -/

theorem double_to_int_of_nonneg (x : ℚ) (h : 0 ≤ x) : double_to_int x = ⌊x⌋ := by
  simp [double_to_int, h]

theorem audio_mix_volume_ramp (MAX : Int) (hMAX : 0 ≤ MAX) (t : ℚ) (h0 : 0 ≤ t)
    (h10 : t < 10) : audio_mix_volume MAX t = ⌊(MAX : ℚ) * t / 10⌋ := by
  have hq : (0 : ℚ) ≤ (MAX : ℚ) := by exact_mod_cast hMAX
  have hx : (0 : ℚ) ≤ (MAX : ℚ) * t / 10 := by positivity
  unfold audio_mix_volume FADE_IN_AUDIO_DURATION_SECS
  push_cast
  rw [if_pos h10, double_to_int_of_nonneg _ hx]

theorem audio_mix_volume_full (MAX : Int) (t : ℚ) (h10 : 10 ≤ t) :
    audio_mix_volume MAX t = MAX := by
  unfold audio_mix_volume FADE_IN_AUDIO_DURATION_SECS
  push_cast
  rw [if_neg (not_lt.mpr h10)]

theorem audio_mix_volume_le_max (MAX : Int) (hMAX : 0 ≤ MAX) (t : ℚ) (h0 : 0 ≤ t) :
    audio_mix_volume MAX t ≤ MAX := by
  rcases lt_or_le t 10 with h10 | h10
  · rw [audio_mix_volume_ramp MAX hMAX t h0 h10]
    have hq : (0 : ℚ) ≤ (MAX : ℚ) := by exact_mod_cast hMAX
    have hx : (MAX : ℚ) * t / 10 ≤ (MAX : ℚ) := by
      rw [div_le_iff₀ (by norm_num : (0 : ℚ) < 10)]
      nlinarith
    have := Int.floor_mono hx
    rwa [Int.floor_intCast] at this
  · rw [audio_mix_volume_full MAX t h10]

/-- Claim C3: for `MAX = SDL_MIX_MAXVOLUME >= 0`, the gain computed in `audio_mix`
is non-decreasing in the elapsed time `t >= 0`, is 0 at `t = 0`, is `MAX` for
every `t >= 10` seconds, never exceeds `MAX`, and during the fade, `0 <= t < 10`,
it is the linear ramp `MAX * t / 10` truncated to an integer (truncation and floor
agree on non-negative values). -/
theorem audio_mix_volume_fade (MAX : Int) (hMAX : 0 ≤ MAX) :
    (∀ t1 t2 : ℚ, 0 ≤ t1 → t1 ≤ t2 → audio_mix_volume MAX t1 ≤ audio_mix_volume MAX t2) ∧
    audio_mix_volume MAX 0 = 0 ∧
    (∀ t : ℚ, (FADE_IN_AUDIO_DURATION_SECS : ℚ) ≤ t → audio_mix_volume MAX t = MAX) ∧
    (∀ t : ℚ, 0 ≤ t → audio_mix_volume MAX t ≤ MAX) ∧
    (∀ t : ℚ, 0 ≤ t → t < (FADE_IN_AUDIO_DURATION_SECS : ℚ) →
      audio_mix_volume MAX t = ⌊(MAX : ℚ) * t / 10⌋ ∧
      ((audio_mix_volume MAX t : Int) : ℚ) ≤ (MAX : ℚ) * t / 10 ∧
      (MAX : ℚ) * t / 10 < ((audio_mix_volume MAX t : Int) : ℚ) + 1) := by
  refine ⟨?_, ?_, ?_, fun t h0 => audio_mix_volume_le_max MAX hMAX t h0, ?_⟩
  · intro t1 t2 h0 h12
    rcases lt_or_le t2 10 with h2 | h2
    · rw [audio_mix_volume_ramp MAX hMAX t1 h0 (lt_of_le_of_lt h12 h2),
        audio_mix_volume_ramp MAX hMAX t2 (le_trans h0 h12) h2]
      apply Int.floor_mono
      have hq : (0 : ℚ) ≤ (MAX : ℚ) := by exact_mod_cast hMAX
      have : (MAX : ℚ) * t1 ≤ (MAX : ℚ) * t2 := mul_le_mul_of_nonneg_left h12 hq
      exact div_le_div_of_nonneg_right this (by norm_num)
    · rw [audio_mix_volume_full MAX t2 h2]
      exact audio_mix_volume_le_max MAX hMAX t1 h0
  · rw [audio_mix_volume_ramp MAX hMAX 0 le_rfl (by norm_num)]
    simp
  · intro t h
    apply audio_mix_volume_full
    simpa [FADE_IN_AUDIO_DURATION_SECS] using h
  · intro t h0 h10
    have h10q : t < 10 := by simpa [FADE_IN_AUDIO_DURATION_SECS] using h10
    rw [audio_mix_volume_ramp MAX hMAX t h0 h10q]
    exact ⟨rfl, Int.floor_le _, Int.lt_floor_add_one _⟩

/-- Witness for C3 at `MAX = 128`, the value of `SDL_MIX_MAXVOLUME` in SDL 1.2:
the gain is 32 after 2.5 s and 127 after 9.99 s. -/
theorem audio_mix_volume_fade_witness :
    (0 : Int) ≤ 128 ∧
    audio_mix_volume 128 (5 / 2) ≤ audio_mix_volume 128 7 ∧
    audio_mix_volume 128 0 = 0 ∧
    audio_mix_volume 128 12 = 128 ∧
    audio_mix_volume 128 3 ≤ 128 ∧
    audio_mix_volume 128 (5 / 2) = 32 ∧
    audio_mix_volume 128 (999 / 100) = 127 :=
  ⟨by decide,
    (audio_mix_volume_fade 128 (by decide)).1 (5 / 2) 7 (by norm_num) (by norm_num),
    (audio_mix_volume_fade 128 (by decide)).2.1,
    (audio_mix_volume_fade 128 (by decide)).2.2.1 12
      (by norm_num [FADE_IN_AUDIO_DURATION_SECS]),
    (audio_mix_volume_fade 128 (by decide)).2.2.2.1 3 (by norm_num),
    (((audio_mix_volume_fade 128 (by decide)).2.2.2.2 (5 / 2) (by norm_num)
      (by norm_num [FADE_IN_AUDIO_DURATION_SECS])).1).trans
      (by rw [Int.floor_eq_iff]; norm_num),
    (((audio_mix_volume_fade 128 (by decide)).2.2.2.2 (999 / 100) (by norm_num)
      (by norm_num [FADE_IN_AUDIO_DURATION_SECS])).1).trans
      (by rw [Int.floor_eq_iff]; norm_num)⟩

/-! ## Load-attempt -/

theorem try_jukebox_start_unbound (w : Provider) (s : Globals)
    (hpl : s.g_jukeboxlist = none) : try_jukebox_start w s = s := by
  simp [try_jukebox_start, hpl]

theorem try_jukebox_start_idle (w : Provider) (s : Globals) (pl : sp_playlist)
    (hpl : s.g_jukeboxlist = some pl)
    (h : w.sp_playlist_num_tracks pl = 0 ∨ w.sp_playlist_num_tracks pl < s.g_track_index) :
    try_jukebox_start w s = s := by
  unfold try_jukebox_start
  rw [hpl]
  rcases h with h | h
  · simp [h]
  · by_cases h0 : w.sp_playlist_num_tracks pl = 0
    · simp [h0]
    · simp [h0, h]

theorem try_jukebox_start_switch_load (w : Provider) (s : Globals) (pl : sp_playlist)
    (c tr : sp_track) (hpl : s.g_jukeboxlist = some pl)
    (hnum : w.sp_playlist_num_tracks pl ≠ 0)
    (hidx : ¬ w.sp_playlist_num_tracks pl < s.g_track_index)
    (hcur : s.g_currenttrack = some c)
    (ht : w.sp_playlist_track pl s.g_track_index = some tr) (hne : tr ≠ c)
    (herr : w.sp_track_error tr = SP_ERROR_OK) :
    try_jukebox_start w s =
      { s with g_audio_queue := [], g_currenttrack := some tr,
               calls := s.calls ++ [Call.playlist_track pl s.g_track_index,
                 Call.player_unload, Call.player_load tr, Call.player_play 1] } := by
  simp [try_jukebox_start, hpl, hnum, hidx, hcur, ht, hne, herr, sp_session_player_unload,
    sp_session_player_load, sp_session_player_play, audio_flush, audio_flush_loop_eq_nil]

theorem try_jukebox_start_switch_stop (w : Provider) (s : Globals) (pl : sp_playlist)
    (c : sp_track) (hpl : s.g_jukeboxlist = some pl)
    (hnum : w.sp_playlist_num_tracks pl ≠ 0)
    (hidx : ¬ w.sp_playlist_num_tracks pl < s.g_track_index)
    (hcur : s.g_currenttrack = some c)
    (hne : w.sp_playlist_track pl s.g_track_index ≠ some c)
    (hstop : w.sp_playlist_track pl s.g_track_index = none ∨
      ∃ tr, w.sp_playlist_track pl s.g_track_index = some tr ∧
        w.sp_track_error tr ≠ SP_ERROR_OK) :
    try_jukebox_start w s =
      { s with g_audio_queue := [], g_currenttrack := none,
               calls := s.calls ++ [Call.playlist_track pl s.g_track_index,
                 Call.player_unload] } := by
  rcases hstop with ht | ⟨tr, ht, herr⟩
  · simp [try_jukebox_start, hpl, hnum, hidx, hcur, ht, sp_session_player_unload,
      audio_flush, audio_flush_loop_eq_nil]
  · have hne2 : tr ≠ c := by
      intro h; apply hne; rw [ht, h]
    simp [try_jukebox_start, hpl, hnum, hidx, hcur, ht, hne2, herr,
      sp_session_player_unload, audio_flush, audio_flush_loop_eq_nil]

theorem try_jukebox_start_same (w : Provider) (s : Globals) (pl : sp_playlist)
    (c : sp_track) (hpl : s.g_jukeboxlist = some pl)
    (hnum : w.sp_playlist_num_tracks pl ≠ 0)
    (hidx : ¬ w.sp_playlist_num_tracks pl < s.g_track_index)
    (hcur : s.g_currenttrack = some c)
    (ht : w.sp_playlist_track pl s.g_track_index = some c) :
    try_jukebox_start w s =
      { s with calls := s.calls ++ [Call.playlist_track pl s.g_track_index] } := by
  by_cases herr : w.sp_track_error c = SP_ERROR_OK
  · simp [try_jukebox_start, hpl, hnum, hidx, hcur, ht, herr]
  · simp [try_jukebox_start, hpl, hnum, hidx, hcur, ht, herr]

theorem try_jukebox_start_fresh_load (w : Provider) (s : Globals) (pl : sp_playlist)
    (tr : sp_track) (hpl : s.g_jukeboxlist = some pl)
    (hnum : w.sp_playlist_num_tracks pl ≠ 0)
    (hidx : ¬ w.sp_playlist_num_tracks pl < s.g_track_index)
    (hcur : s.g_currenttrack = none)
    (ht : w.sp_playlist_track pl s.g_track_index = some tr)
    (herr : w.sp_track_error tr = SP_ERROR_OK) :
    try_jukebox_start w s =
      { s with g_currenttrack := some tr,
               calls := s.calls ++ [Call.playlist_track pl s.g_track_index,
                 Call.player_load tr, Call.player_play 1] } := by
  simp [try_jukebox_start, hpl, hnum, hidx, hcur, ht, herr, sp_session_player_load,
    sp_session_player_play]

theorem try_jukebox_start_fresh_stop (w : Provider) (s : Globals) (pl : sp_playlist)
    (hpl : s.g_jukeboxlist = some pl)
    (hnum : w.sp_playlist_num_tracks pl ≠ 0)
    (hidx : ¬ w.sp_playlist_num_tracks pl < s.g_track_index)
    (hcur : s.g_currenttrack = none)
    (hstop : w.sp_playlist_track pl s.g_track_index = none ∨
      ∃ tr, w.sp_playlist_track pl s.g_track_index = some tr ∧
        w.sp_track_error tr ≠ SP_ERROR_OK) :
    try_jukebox_start w s =
      { s with calls := s.calls ++ [Call.playlist_track pl s.g_track_index] } := by
  rcases hstop with ht | ⟨tr, ht, herr⟩
  · simp [try_jukebox_start, hpl, hnum, hidx, hcur, ht]
  · simp [try_jukebox_start, hpl, hnum, hidx, hcur, ht, herr]

/-- Every run of load-attempt only touches the queue, the current track and the
call log, and appends no removal command. -/
theorem try_jukebox_start_shape (w : Provider) (s : Globals) :
    ∃ (q : List Chunk) (cur : Option sp_track) (more : List Call),
      try_jukebox_start w s =
        { s with g_audio_queue := q, g_currenttrack := cur, calls := s.calls ++ more } ∧
      ∀ c ∈ more, c.isRemove = false := by
  have hkeep : s =
      { s with g_audio_queue := s.g_audio_queue, g_currenttrack := s.g_currenttrack,
               calls := s.calls ++ [] } := by simp
  rcases Option.eq_none_or_eq_some s.g_jukeboxlist with hpl | ⟨pl, hpl⟩
  · refine ⟨s.g_audio_queue, s.g_currenttrack, [], ?_, by simp⟩
    rw [try_jukebox_start_unbound w s hpl]; exact hkeep
  by_cases hg : w.sp_playlist_num_tracks pl = 0 ∨
      w.sp_playlist_num_tracks pl < s.g_track_index
  · refine ⟨s.g_audio_queue, s.g_currenttrack, [], ?_, by simp⟩
    rw [try_jukebox_start_idle w s pl hpl hg]; exact hkeep
  have hnum : w.sp_playlist_num_tracks pl ≠ 0 := fun h => hg (Or.inl h)
  have hidx : ¬ w.sp_playlist_num_tracks pl < s.g_track_index := fun h => hg (Or.inr h)
  have hstop : (¬ ∃ tr, w.sp_playlist_track pl s.g_track_index = some tr ∧
        w.sp_track_error tr = SP_ERROR_OK) →
      (w.sp_playlist_track pl s.g_track_index = none ∨
        ∃ tr, w.sp_playlist_track pl s.g_track_index = some tr ∧
          w.sp_track_error tr ≠ SP_ERROR_OK) := by
    intro h
    rcases Option.eq_none_or_eq_some (w.sp_playlist_track pl s.g_track_index) with ht | ⟨tr, ht⟩
    · exact Or.inl ht
    · exact Or.inr ⟨tr, ht, fun herr => h ⟨tr, ht, herr⟩⟩
  rcases Option.eq_none_or_eq_some s.g_currenttrack with hcur | ⟨c, hcur⟩
  · by_cases hok : ∃ tr, w.sp_playlist_track pl s.g_track_index = some tr ∧
        w.sp_track_error tr = SP_ERROR_OK
    · obtain ⟨tr, ht, herr⟩ := hok
      refine ⟨s.g_audio_queue, some tr, [Call.playlist_track pl s.g_track_index,
        Call.player_load tr, Call.player_play 1], ?_, by simp [Call.isRemove]⟩
      rw [try_jukebox_start_fresh_load w s pl tr hpl hnum hidx hcur ht herr]
    · refine ⟨s.g_audio_queue, none, [Call.playlist_track pl s.g_track_index], ?_,
        by simp [Call.isRemove]⟩
      rw [try_jukebox_start_fresh_stop w s pl hpl hnum hidx hcur (hstop hok), ← hcur]
  · by_cases hsame : w.sp_playlist_track pl s.g_track_index = some c
    · refine ⟨s.g_audio_queue, some c, [Call.playlist_track pl s.g_track_index], ?_,
        by simp [Call.isRemove]⟩
      rw [try_jukebox_start_same w s pl c hpl hnum hidx hcur hsame, ← hcur]
    · by_cases hok : ∃ tr, w.sp_playlist_track pl s.g_track_index = some tr ∧
          w.sp_track_error tr = SP_ERROR_OK
      · obtain ⟨tr, ht, herr⟩ := hok
        have hne : tr ≠ c := by
          intro h; apply hsame; rw [ht, h]
        refine ⟨[], some tr, [Call.playlist_track pl s.g_track_index, Call.player_unload,
          Call.player_load tr, Call.player_play 1], ?_, by simp [Call.isRemove]⟩
        rw [try_jukebox_start_switch_load w s pl c tr hpl hnum hidx hcur ht hne herr]
      · refine ⟨[], none, [Call.playlist_track pl s.g_track_index, Call.player_unload], ?_,
          by simp [Call.isRemove]⟩
        rw [try_jukebox_start_switch_stop w s pl c hpl hnum hidx hcur hsame (hstop hok)]

theorem try_jukebox_start_track_index (w : Provider) (s : Globals) :
    (try_jukebox_start w s).g_track_index = s.g_track_index := by
  obtain ⟨q, cur, more, h, _⟩ := try_jukebox_start_shape w s
  rw [h]

theorem try_jukebox_start_jukeboxlist (w : Provider) (s : Globals) :
    (try_jukebox_start w s).g_jukeboxlist = s.g_jukeboxlist := by
  obtain ⟨q, cur, more, h, _⟩ := try_jukebox_start_shape w s
  rw [h]

theorem try_jukebox_start_calls (w : Provider) (s : Globals) :
    ∃ more : List Call, (try_jukebox_start w s).calls = s.calls ++ more ∧
      ∀ c ∈ more, c.isRemove = false := by
  obtain ⟨q, cur, more, h, hrem⟩ := try_jukebox_start_shape w s
  exact ⟨more, by rw [h], hrem⟩

/-- Past the guard of lines 231-242 the track at the current index is fetched. -/
theorem try_jukebox_start_fetches (w : Provider) (s : Globals) (pl : sp_playlist)
    (hpl : s.g_jukeboxlist = some pl) (hnum : w.sp_playlist_num_tracks pl ≠ 0)
    (hidx : ¬ w.sp_playlist_num_tracks pl < s.g_track_index) :
    ∃ more : List Call,
      (try_jukebox_start w s).calls =
        s.calls ++ Call.playlist_track pl s.g_track_index :: more := by
  have hstop : (¬ ∃ tr, w.sp_playlist_track pl s.g_track_index = some tr ∧
        w.sp_track_error tr = SP_ERROR_OK) →
      (w.sp_playlist_track pl s.g_track_index = none ∨
        ∃ tr, w.sp_playlist_track pl s.g_track_index = some tr ∧
          w.sp_track_error tr ≠ SP_ERROR_OK) := by
    intro h
    rcases Option.eq_none_or_eq_some (w.sp_playlist_track pl s.g_track_index) with ht | ⟨tr, ht⟩
    · exact Or.inl ht
    · exact Or.inr ⟨tr, ht, fun herr => h ⟨tr, ht, herr⟩⟩
  rcases Option.eq_none_or_eq_some s.g_currenttrack with hcur | ⟨c, hcur⟩
  · by_cases hok : ∃ tr, w.sp_playlist_track pl s.g_track_index = some tr ∧
        w.sp_track_error tr = SP_ERROR_OK
    · obtain ⟨tr, ht, herr⟩ := hok
      rw [try_jukebox_start_fresh_load w s pl tr hpl hnum hidx hcur ht herr]
      exact ⟨_, rfl⟩
    · rw [try_jukebox_start_fresh_stop w s pl hpl hnum hidx hcur (hstop hok)]
      exact ⟨_, rfl⟩
  · by_cases hsame : w.sp_playlist_track pl s.g_track_index = some c
    · rw [try_jukebox_start_same w s pl c hpl hnum hidx hcur hsame]
      exact ⟨_, rfl⟩
    · by_cases hok : ∃ tr, w.sp_playlist_track pl s.g_track_index = some tr ∧
          w.sp_track_error tr = SP_ERROR_OK
      · obtain ⟨tr, ht, herr⟩ := hok
        have hne : tr ≠ c := by
          intro h; apply hsame; rw [ht, h]
        rw [try_jukebox_start_switch_load w s pl c tr hpl hnum hidx hcur ht hne herr]
        exact ⟨_, rfl⟩
      · rw [try_jukebox_start_switch_stop w s pl c hpl hnum hidx hcur hsame (hstop hok)]
        exact ⟨_, rfl⟩

/-- The guard the code implements: with a bound playlist, load-attempt returns
without fetching exactly when the playlist is empty or the index is strictly
greater than the track count. -/
theorem try_jukebox_start_idle_iff (w : Provider) (s : Globals) (pl : sp_playlist)
    (hpl : s.g_jukeboxlist = some pl) :
    try_jukebox_start w s = s ↔
      (w.sp_playlist_num_tracks pl = 0 ∨ w.sp_playlist_num_tracks pl < s.g_track_index) := by
  constructor
  · intro h
    by_contra hg
    obtain ⟨more, hm⟩ := try_jukebox_start_fetches w s pl hpl (fun h0 => hg (Or.inl h0))
      (fun h1 => hg (Or.inr h1))
    rw [h] at hm
    have := congrArg List.length hm
    simp at this
  · exact try_jukebox_start_idle w s pl hpl

/-! ## Example data: playlist 1 named "jb" with tracks A = 10, B = 11, C = 12 -/

/-- The bytes of the name "jb". -/
def name_jb : List Nat := [106, 98]

/-- The bytes of the name "JB". -/
def name_JB : List Nat := [74, 66]

/-- The bytes of the name "old". -/
def name_old : List Nat := [111, 108, 100]

/-- Provider contents: playlist 1 is "jb" and holds A, B, C. -/
def provider_abc : Provider := Provider.ofTables [(1, name_jb, [10, 11, 12])] []

/-- Globals with playlist 1 bound and A loaded at index 0. -/
def playing_a (remove_tracks : Int) : Globals :=
  { Globals.init name_jb remove_tracks with
    g_jukeboxlist := some 1, g_currenttrack := some 10 }

/-! ## End of track -/

/-- Claim C4: with deletion disabled, a bound playlist and a loaded track,
`track_ended` clears the current track, issues unload, increments the index and
runs load-attempt in that state; the index ends at `i + 1`, no removal command is
issued, and when the track at `i + 1` is fetched and has no error it becomes the
current track with load and play issued. -/
theorem track_ended_advances (w : Provider) (s : Globals) (pl : sp_playlist) (a : sp_track)
    (hdel : s.g_remove_tracks = 0) (hpl : s.g_jukeboxlist = some pl)
    (hcur : s.g_currenttrack = some a) :
    track_ended w s =
      try_jukebox_start w
        { s with g_currenttrack := none, g_track_index := s.g_track_index + 1,
                 calls := s.calls ++ [Call.player_unload] } ∧
    (track_ended w s).g_track_index = s.g_track_index + 1 ∧
    (∃ more : List Call,
      (track_ended w s).calls = s.calls ++ Call.player_unload :: more ∧
      ∀ c ∈ more, c.isRemove = false) ∧
    (∀ b : sp_track, w.sp_playlist_num_tracks pl ≠ 0 →
      ¬ w.sp_playlist_num_tracks pl < s.g_track_index + 1 →
      w.sp_playlist_track pl (s.g_track_index + 1) = some b →
      w.sp_track_error b = SP_ERROR_OK →
      track_ended w s =
        { s with g_currenttrack := some b, g_track_index := s.g_track_index + 1,
                 calls := s.calls ++ [Call.player_unload,
                   Call.playlist_track pl (s.g_track_index + 1),
                   Call.player_load b, Call.player_play 1] }) := by
  have hstep : track_ended w s =
      try_jukebox_start w
        { s with g_currenttrack := none, g_track_index := s.g_track_index + 1,
                 calls := s.calls ++ [Call.player_unload] } := by
    simp [track_ended, hcur, hdel, sp_session_player_unload]
  refine ⟨hstep, ?_, ?_, ?_⟩
  · rw [hstep, try_jukebox_start_track_index]
  · obtain ⟨more, hm, hrem⟩ := try_jukebox_start_calls w
      { s with g_currenttrack := none, g_track_index := s.g_track_index + 1,
               calls := s.calls ++ [Call.player_unload] }
    refine ⟨more, ?_, hrem⟩
    rw [hstep, hm]; simp
  · intro b hnum hidx ht herr
    have hload := try_jukebox_start_fresh_load w
      { s with g_currenttrack := none, g_track_index := s.g_track_index + 1,
               calls := s.calls ++ [Call.player_unload] } pl b hpl hnum hidx rfl ht herr
    rw [hstep, hload]
    simp

/-- Witness for C4: playlist [A, B, C], deletion disabled, A loaded at index 0;
after the end of A the index is 1 and B is loaded and played. -/
theorem track_ended_advances_witness :
    ((playing_a 0).g_remove_tracks = 0 ∧ (playing_a 0).g_jukeboxlist = some 1 ∧
      (playing_a 0).g_currenttrack = some 10) ∧
    track_ended provider_abc (playing_a 0) =
      { playing_a 0 with g_currenttrack := some 11, g_track_index := 0 + 1,
                         calls := [] ++ [Call.player_unload, Call.playlist_track 1 (0 + 1),
                           Call.player_load 11, Call.player_play 1] } :=
  ⟨⟨rfl, rfl, rfl⟩,
    (track_ended_advances provider_abc (playing_a 0) 1 10 rfl rfl rfl).2.2.2 11
      (by decide) (by decide) (by decide) (by decide)⟩

/-- Claim C5: with deletion enabled, a bound playlist and a loaded track,
`track_ended` clears the current track and issues unload followed by exactly one
removal command, for the single position 0 of the bound playlist; the index is
unchanged and nothing else happens (no fetch, load or play). -/
theorem track_ended_removes_first (w : Provider) (s : Globals) (pl : sp_playlist)
    (a : sp_track) (hdel : s.g_remove_tracks ≠ 0) (hpl : s.g_jukeboxlist = some pl)
    (hcur : s.g_currenttrack = some a) :
    track_ended w s =
      { s with g_currenttrack := none,
               calls := s.calls ++ [Call.player_unload,
                 Call.playlist_remove_tracks (some pl) [0]] } ∧
    (track_ended w s).g_track_index = s.g_track_index := by
  have hstep : track_ended w s =
      { s with g_currenttrack := none,
               calls := s.calls ++ [Call.player_unload,
                 Call.playlist_remove_tracks (some pl) [0]] } := by
    simp [track_ended, hcur, hdel, hpl, sp_session_player_unload, sp_playlist_remove_tracks]
  exact ⟨hstep, by rw [hstep]⟩

/-- Witness for C5: playlist [A, B, C], deletion enabled, A loaded at index 0. -/
theorem track_ended_removes_first_witness :
    ((playing_a 1).g_remove_tracks ≠ 0 ∧ (playing_a 1).g_jukeboxlist = some 1 ∧
      (playing_a 1).g_currenttrack = some 10) ∧
    track_ended provider_abc (playing_a 1) =
      { playing_a 1 with g_currenttrack := none,
                         calls := [] ++ [Call.player_unload,
                           Call.playlist_remove_tracks (some 1) [0]] } ∧
    (track_ended provider_abc (playing_a 1)).g_track_index = 0 :=
  ⟨⟨by decide, rfl, rfl⟩,
    track_ended_removes_first provider_abc (playing_a 1) 1 10 (by decide) rfl rfl⟩

/-! ## Tracks removed -/

theorem tracks_removed_loop_eq (g_track_index : Int) :
    ∀ (tracks : List Int) (k : Int),
      tracks_removed_loop g_track_index tracks k =
        k + ((tracks.filter (fun p => p < g_track_index)).length : Int)
  | [], k => by simp [tracks_removed_loop]
  | x :: rest, k => by
    rw [tracks_removed_loop, tracks_removed_loop_eq g_track_index rest]
    by_cases h : x < g_track_index
    · simp [h]; ring
    · simp [h]

/-- Claim C6: a track-removed event on the tracked playlist with removed
positions `tracks` sets the index to the old index minus the number of entries of
`tracks` strictly below the old index, then runs load-attempt, which keeps that
index. -/
theorem tracks_removed_index (w : Provider) (s : Globals) (pl : sp_playlist)
    (tracks : List Int) (hpl : s.g_jukeboxlist = some pl) :
    tracks_removed w s pl tracks =
      try_jukebox_start w
        { s with g_track_index :=
            s.g_track_index - ((tracks.filter (fun p => p < s.g_track_index)).length : Int) } ∧
    (tracks_removed w s pl tracks).g_track_index =
      s.g_track_index - ((tracks.filter (fun p => p < s.g_track_index)).length : Int) := by
  have hstep : tracks_removed w s pl tracks =
      try_jukebox_start w
        { s with g_track_index :=
            s.g_track_index -
              ((tracks.filter (fun p => p < s.g_track_index)).length : Int) } := by
    simp [tracks_removed, hpl, tracks_removed_loop_eq]
  exact ⟨hstep, by rw [hstep, try_jukebox_start_track_index]⟩

/-- Witness for C6: positions 0 and 2 removed while the index is 3; the playlist
had five tracks 10..14 and holds 11, 13, 14 afterwards.  The index becomes 1. -/
theorem tracks_removed_index_witness :
    ({ Globals.init name_jb 0 with
        g_jukeboxlist := some 1, g_track_index := 3 } : Globals).g_jukeboxlist = some 1 ∧
    (tracks_removed (Provider.ofTables [(1, name_jb, [11, 13, 14])] [])
      { Globals.init name_jb 0 with g_jukeboxlist := some 1, g_track_index := 3 }
      1 [0, 2]).g_track_index = 1 :=
  ⟨rfl,
    (tracks_removed_index (Provider.ofTables [(1, name_jb, [11, 13, 14])] [])
      { Globals.init name_jb 0 with g_jukeboxlist := some 1, g_track_index := 3 }
      1 [0, 2] rfl).2⟩

/-! ## Playlist renamed -/

theorem tolower_ne_zero (c : Nat) (h : c ≠ 0) : tolower c ≠ 0 := by
  unfold tolower
  split_ifs <;> omega

/-- On strings without an embedded terminator, `strcasecmp` returns 0 exactly
when the two strings agree after `tolower`. -/
theorem strcasecmp_eq_zero_iff :
    ∀ (a b : List Nat), (∀ c ∈ a, c ≠ 0) → (∀ c ∈ b, c ≠ 0) →
      (strcasecmp a b = 0 ↔ a.map tolower = b.map tolower)
  | [], [], _, _ => by simp [strcasecmp]
  | [], y :: ys, _, hb => by
    have := tolower_ne_zero y (hb y (by simp))
    simp only [strcasecmp, List.map_nil, List.map_cons]
    constructor
    · intro h; omega
    · intro h; exact absurd h (by simp)
  | x :: xs, [], ha, _ => by
    have := tolower_ne_zero x (ha x (by simp))
    simp only [strcasecmp, List.map_nil, List.map_cons]
    constructor
    · intro h; omega
    · intro h; exact absurd h (by simp)
  | x :: xs, y :: ys, ha, hb => by
    have ih := strcasecmp_eq_zero_iff xs ys (fun c hc => ha c (by simp [hc]))
      (fun c hc => hb c (by simp [hc]))
    simp only [strcasecmp, List.map_cons, List.cons.injEq]
    by_cases hxy : tolower x = tolower y
    · simp only [hxy, if_true, true_and]; exact ih
    · simp only [hxy, if_false, false_and, iff_false]
      omega

/-- Claim C7: on a playlist-renamed event, (a) if the playlist is the tracked one
and its new name does not match the target, it is unbound, the current track is
cleared, unload is issued and the index is unchanged; (b) if the new name matches
the target under `strcasecmp`, the playlist becomes the tracked one and the index
is 0 when load-attempt runs and afterwards; (c) if the playlist is not the
tracked one and its new name does not match, nothing changes. -/
theorem playlist_renamed_cases (w : Provider) (s : Globals) (pl : sp_playlist) :
    (s.g_jukeboxlist = some pl → strcasecmp (w.sp_playlist_name pl) s.g_listname ≠ 0 →
      playlist_renamed w s pl =
        { s with g_jukeboxlist := none, g_currenttrack := none,
                 calls := s.calls ++ [Call.player_unload] }) ∧
    (strcasecmp (w.sp_playlist_name pl) s.g_listname = 0 →
      playlist_renamed w s pl =
        try_jukebox_start w { s with g_jukeboxlist := some pl, g_track_index := 0 } ∧
      (playlist_renamed w s pl).g_jukeboxlist = some pl ∧
      (playlist_renamed w s pl).g_track_index = 0) ∧
    (s.g_jukeboxlist ≠ some pl → strcasecmp (w.sp_playlist_name pl) s.g_listname ≠ 0 →
      playlist_renamed w s pl = s) := by
  refine ⟨?_, ?_, ?_⟩
  · intro hpl hname
    simp [playlist_renamed, hname, hpl, sp_session_player_unload]
  · intro hname
    have hstep : playlist_renamed w s pl =
        try_jukebox_start w { s with g_jukeboxlist := some pl, g_track_index := 0 } := by
      simp [playlist_renamed, hname]
    exact ⟨hstep, by rw [hstep, try_jukebox_start_jukeboxlist],
      by rw [hstep, try_jukebox_start_track_index]⟩
  · intro hpl hname
    simp [playlist_renamed, hname, hpl]

/-- Witness for C7.  (a) Playlist 1, tracked with A loaded at index 0, is renamed
to "old" while the target is "jb".  (b) Playlist 2 is renamed to "JB" while
playlist 1 is tracked at index 2.  (c) Playlist 2 is renamed to "old" while
playlist 1 is tracked. -/
theorem playlist_renamed_cases_witness :
    playlist_renamed (Provider.ofTables [(1, name_old, [10, 11, 12])] []) (playing_a 0) 1 =
      { playing_a 0 with g_jukeboxlist := none, g_currenttrack := none,
                         calls := [] ++ [Call.player_unload] } ∧
    ((playlist_renamed
        (Provider.ofTables [(1, name_jb, [10, 11, 12]), (2, name_JB, [20])] [])
        { playing_a 0 with g_currenttrack := some 12, g_track_index := 2 } 2).g_jukeboxlist
        = some 2 ∧
      (playlist_renamed
        (Provider.ofTables [(1, name_jb, [10, 11, 12]), (2, name_JB, [20])] [])
        { playing_a 0 with g_currenttrack := some 12, g_track_index := 2 } 2).g_track_index
        = 0) ∧
    playlist_renamed
      (Provider.ofTables [(1, name_jb, [10, 11, 12]), (2, name_old, [20])] [])
      (playing_a 0) 2 = playing_a 0 :=
  ⟨(playlist_renamed_cases (Provider.ofTables [(1, name_old, [10, 11, 12])] [])
      (playing_a 0) 1).1 rfl (by decide),
    ((playlist_renamed_cases
      (Provider.ofTables [(1, name_jb, [10, 11, 12]), (2, name_JB, [20])] [])
      { playing_a 0 with g_currenttrack := some 12, g_track_index := 2 } 2).2.1
      (by decide)).2,
    (playlist_renamed_cases
      (Provider.ofTables [(1, name_jb, [10, 11, 12]), (2, name_old, [20])] [])
      (playing_a 0) 2).2.2 (by decide) (by decide)⟩

/-! ## Track index and the bound playlist -/

/-- Provider contents: playlist 1 is "jb" and holds A, B. -/
def provider_ab : Provider := Provider.ofTables [(1, name_jb, [10, 11])] []

/-- Provider contents after playlist 1 was renamed to "old". -/
def provider_ab_old : Provider := Provider.ofTables [(1, name_old, [10, 11])] []

/-- Provider contents after a playlist 2 named "jb" holding one track appeared. -/
def provider_ab_old_new : Provider :=
  Provider.ofTables [(1, name_old, [10, 11]), (2, name_jb, [20])] []

/-- A history from program start: playlist 1 "jb" = [A, B] is added, A ends, B
ends, playlist 1 is renamed to "old", playlist 2 "jb" = [X] is added. -/
def history_rebind : List (Provider × Event) :=
  [(provider_ab, Event.playlist_added 1),
   (provider_ab, Event.end_of_track),
   (provider_ab, Event.end_of_track),
   (provider_ab_old, Event.playlist_renamed 1),
   (provider_ab_old_new, Event.playlist_added 2)]

/-- Claim C8, evaluated on the code: after the history above playlist 2 is bound,
it has one track, and the index is 2, past one-past-the-end; its track is not
loaded.  `playlist_added` binds without resetting the index, unlike
`playlist_renamed`. -/
theorem playlist_added_keeps_stale_index :
    (run_events history_rebind (Globals.init name_jb 0)).g_jukeboxlist = some 2 ∧
    provider_ab_old_new.sp_playlist_num_tracks 2 = 1 ∧
    (run_events history_rebind (Globals.init name_jb 0)).g_track_index = 2 ∧
    (run_events history_rebind (Globals.init name_jb 0)).g_currenttrack = none ∧
    (run_events history_rebind (Globals.init name_jb 0)).calls =
      [Call.playlist_track 1 0, Call.player_load 10, Call.player_play 1,
       Call.player_unload, Call.playlist_track 1 1, Call.player_load 11, Call.player_play 1,
       Call.player_unload, Call.playlist_track 1 2,
       Call.player_unload] := by
  decide

/-! ## The guard of load-attempt -/

/-- Provider contents: playlist 1 is "jb" and holds A only. -/
def provider_a : Provider := Provider.ofTables [(1, name_jb, [10])] []

/-- Globals with playlist 1 bound, index 1 and nothing loaded. -/
def after_last_track : Globals :=
  { Globals.init name_jb 0 with g_jukeboxlist := some 1, g_track_index := 1 }

/-- Globals with playlist 1 bound, index 1, B loaded and one block queued. -/
def playing_b : Globals :=
  { Globals.init name_jb 0 with
    g_jukeboxlist := some 1, g_track_index := 1, g_currenttrack := some 11,
    g_audio_queue := [delivered_chunk [1, 0, 2, 0] 1] }

/-- Claim C9, evaluated on the code: with one track in the bound playlist and
index 1 (index = track count), load-attempt does not take the Idle branch: it
fetches position 1, and when a track is loaded it also flushes the queue, issues
unload and clears the current track. -/
theorem try_jukebox_start_fetches_at_track_count :
    provider_a.sp_playlist_num_tracks 1 = 1 ∧
    after_last_track.g_track_index = 1 ∧
    try_jukebox_start provider_a after_last_track =
      { after_last_track with calls := [Call.playlist_track 1 1] } ∧
    playing_b.g_track_index = 1 ∧
    try_jukebox_start provider_a playing_b =
      { playing_b with g_audio_queue := [], g_currenttrack := none,
                       calls := [Call.playlist_track 1 1, Call.player_unload] } := by
  refine ⟨by decide, rfl, ?_, rfl, ?_⟩
  · exact try_jukebox_start_fresh_stop provider_a after_last_track 1 rfl (by decide)
      (by decide) rfl (Or.inl (by decide))
  · exact try_jukebox_start_switch_stop provider_a playing_b 1 11 rfl (by decide)
      (by decide) rfl (by decide) (Or.inl (by decide))

/-- Claim C10: load-attempt never changes the index; and when it gets past the
guard, with candidate `t` the track fetched at the current index,
(a) when a track `c` is loaded and `t` differs from it, the queue is flushed,
unload is issued and the current track is cleared; then a present, error-free `t`
becomes the current track with load and play issued, and otherwise nothing more
happens;
(b) when the loaded track is `t` itself, no command is issued and nothing changes;
(c) when no track is loaded, a present, error-free `t` becomes the current track
with load and play issued, and otherwise nothing changes. -/
theorem try_jukebox_start_load_attempt (w : Provider) (s : Globals) :
    (try_jukebox_start w s).g_track_index = s.g_track_index ∧
    ∀ pl : sp_playlist, s.g_jukeboxlist = some pl → w.sp_playlist_num_tracks pl ≠ 0 →
      ¬ w.sp_playlist_num_tracks pl < s.g_track_index →
      (∀ c : sp_track, s.g_currenttrack = some c →
        w.sp_playlist_track pl s.g_track_index ≠ some c →
        (∀ tr : sp_track, w.sp_playlist_track pl s.g_track_index = some tr →
          w.sp_track_error tr = SP_ERROR_OK →
          try_jukebox_start w s =
            { s with g_audio_queue := [], g_currenttrack := some tr,
                     calls := s.calls ++ [Call.playlist_track pl s.g_track_index,
                       Call.player_unload, Call.player_load tr, Call.player_play 1] }) ∧
        ((w.sp_playlist_track pl s.g_track_index = none ∨
            ∃ tr, w.sp_playlist_track pl s.g_track_index = some tr ∧
              w.sp_track_error tr ≠ SP_ERROR_OK) →
          try_jukebox_start w s =
            { s with g_audio_queue := [], g_currenttrack := none,
                     calls := s.calls ++ [Call.playlist_track pl s.g_track_index,
                       Call.player_unload] })) ∧
      (∀ c : sp_track, s.g_currenttrack = some c →
        w.sp_playlist_track pl s.g_track_index = some c →
        try_jukebox_start w s =
          { s with calls := s.calls ++ [Call.playlist_track pl s.g_track_index] }) ∧
      (s.g_currenttrack = none →
        (∀ tr : sp_track, w.sp_playlist_track pl s.g_track_index = some tr →
          w.sp_track_error tr = SP_ERROR_OK →
          try_jukebox_start w s =
            { s with g_currenttrack := some tr,
                     calls := s.calls ++ [Call.playlist_track pl s.g_track_index,
                       Call.player_load tr, Call.player_play 1] }) ∧
        ((w.sp_playlist_track pl s.g_track_index = none ∨
            ∃ tr, w.sp_playlist_track pl s.g_track_index = some tr ∧
              w.sp_track_error tr ≠ SP_ERROR_OK) →
          try_jukebox_start w s =
            { s with calls := s.calls ++ [Call.playlist_track pl s.g_track_index] })) := by
  refine ⟨try_jukebox_start_track_index w s, ?_⟩
  intro pl hpl hnum hidx
  refine ⟨?_, ?_, ?_⟩
  · intro c hcur hne
    refine ⟨?_, try_jukebox_start_switch_stop w s pl c hpl hnum hidx hcur hne⟩
    intro tr ht herr
    have hne2 : tr ≠ c := by
      intro h; apply hne; rw [ht, h]
    exact try_jukebox_start_switch_load w s pl c tr hpl hnum hidx hcur ht hne2 herr
  · intro c hcur ht
    exact try_jukebox_start_same w s pl c hpl hnum hidx hcur ht
  · intro hcur
    exact ⟨fun tr ht herr => try_jukebox_start_fresh_load w s pl tr hpl hnum hidx hcur ht herr,
      try_jukebox_start_fresh_stop w s pl hpl hnum hidx hcur⟩

/-- Globals with playlist 1 = [A, B, C] bound, A loaded, the index at 1 (B) and
one block queued. -/
def playing_a_at_b : Globals :=
  { playing_a 0 with g_track_index := 1, g_audio_queue := [delivered_chunk [1, 0, 2, 0] 1] }

/-- Witness for C10: A is loaded while the track at the index is B; the queue is
flushed, A unloaded, B loaded and played, the index stays 1. -/
theorem try_jukebox_start_load_attempt_witness :
    (playing_a_at_b.g_jukeboxlist = some 1 ∧
      provider_abc.sp_playlist_num_tracks 1 ≠ 0 ∧
      ¬ provider_abc.sp_playlist_num_tracks 1 < playing_a_at_b.g_track_index) ∧
    (try_jukebox_start provider_abc playing_a_at_b).g_track_index = 1 ∧
    try_jukebox_start provider_abc playing_a_at_b =
      { playing_a_at_b with
        g_audio_queue := [], g_currenttrack := some 11,
        calls := [] ++ [Call.playlist_track 1 1, Call.player_unload, Call.player_load 11,
          Call.player_play 1] } :=
  ⟨⟨rfl, by decide, by decide⟩,
    (try_jukebox_start_load_attempt provider_abc playing_a_at_b).1,
    (((try_jukebox_start_load_attempt provider_abc playing_a_at_b).2 1 rfl (by decide)
      (by decide)).1 10 rfl (by decide)).1 11 (by decide) (by decide)⟩

/-! ## Control loop: where the flags are read and cleared -/

/-- Every enabled step keeps the ownership flag in line with the program point:
the main thread owns the mutex exactly at `loop_top`, `clear_notify` and
`unlock`. -/
theorem step_notify_mutex_held (l l1 : Loop) (a : Action)
    (hinv : l.notify_mutex_held = l.pc.holds_mutex) (h : l.step a = some l1) :
    l1.notify_mutex_held = l1.pc.holds_mutex := by
  cases a with
  | main_step w =>
    simp only [Loop.step, main_step] at h
    split at h <;> (try split_ifs at h) <;> cases h <;> simp_all [MainPc.holds_mutex]
  | wake =>
    simp only [Loop.step] at h
    split at h <;> cases h <;> rfl
  | process_events history next_timeout =>
    simp only [Loop.step] at h
    split_ifs at h with hc
    simp only [Option.some.injEq] at h
    subst h
    simp_all [MainPc.holds_mutex]
  | cb_notify_main_thread =>
    simp only [Loop.step] at h
    split_ifs at h
    simp only [Option.some.injEq] at h
    subst h
    exact hinv
  | cb_end_of_track =>
    simp only [Loop.step] at h
    split_ifs at h
    simp only [Option.some.injEq] at h
    subst h
    exact hinv

/-- With no callback in between, the three statements of lines 689-692 amount to
`main_playback_done`. -/
theorem main_steps_playback_done (w : Provider) (l : Loop) (hpc : l.pc = MainPc.test_done) :
    (l.globals.g_playback_done ≠ 0 →
      Loop.run [Action.main_step w, Action.main_step w, Action.main_step w] l =
        some { l with globals := main_playback_done w l.globals,
                      pc := MainPc.process_events }) ∧
    (l.globals.g_playback_done = 0 →
      Loop.run [Action.main_step w] l =
        some { l with globals := main_playback_done w l.globals,
                      pc := MainPc.process_events }) := by
  constructor
  · intro hd
    simp [Loop.run, Loop.step, main_step, hpc, hd, main_playback_done]
  · intro hd
    simp [Loop.run, Loop.step, main_step, hpc, hd, main_playback_done]

/-- The process when `main` enters the loop (after line 676) with target "jb" and
deletion disabled. -/
def loop_start : Loop :=
  { globals := Globals.init name_jb 0
    pc := MainPc.loop_top
    notify_mutex_held := true
    next_timeout := 0 }

/-- A schedule up to the moment the main thread is inside `track_ended` for the
end of A: the loop blocks, is notified, binds playlist 1 = [A, B, C] and plays A;
A ends; the loop wakes, clears `g_notify_do`, releases the mutex, sees
`g_playback_done` and runs `track_ended`, which loads B. -/
def schedule_first_end : List Action :=
  [Action.main_step provider_abc,
   Action.cb_notify_main_thread,
   Action.wake,
   Action.main_step provider_abc,
   Action.main_step provider_abc,
   Action.main_step provider_abc,
   Action.main_step provider_abc,
   Action.process_events [(provider_abc, Event.playlist_added 1)] 100,
   Action.main_step provider_abc,
   Action.main_step provider_abc,
   Action.cb_end_of_track,
   Action.wake,
   Action.main_step provider_abc,
   Action.main_step provider_abc,
   Action.main_step provider_abc,
   Action.main_step provider_abc]

/-- The rest of the iteration: line 691, the event processing, the lock and the
next wait. -/
def schedule_finish : List Action :=
  [Action.main_step provider_abc,
   Action.process_events [] 100,
   Action.main_step provider_abc,
   Action.main_step provider_abc]

/-- Claim C11, evaluated on the code: `g_notify_do` is cleared with the mutex held,
but `g_playback_done` is read and cleared after the mutex is released.  In the
schedule where B ends while the main thread is between `track_ended` (line 690)
and the clearing of line 691, the second `end_of_track` callback sets the flag
with the mutex free, line 691 clears it, and the loop is back in its wait with
the flag 0, B still the current track and `track_ended` run once for two
callbacks.  Had the callback come after line 691, the flag would still be set. -/
theorem playback_done_cleared_unprocessed :
    MainPc.holds_mutex MainPc.clear_notify = true ∧
    MainPc.holds_mutex MainPc.test_done = false ∧
    MainPc.holds_mutex MainPc.clear_done = false ∧
    (Loop.run schedule_first_end loop_start).map (fun l => (l.pc, l.notify_mutex_held)) =
      some (MainPc.clear_done, false) ∧
    Loop.run (schedule_first_end ++ Action.cb_end_of_track :: schedule_finish) loop_start =
      some
        { globals :=
            { Globals.init name_jb 0 with
              g_playback_done := 0, g_jukeboxlist := some 1,
              g_currenttrack := some 11, g_track_index := 1,
              calls := [Call.playlist_track 1 0, Call.player_load 10, Call.player_play 1,
                Call.player_unload, Call.playlist_track 1 1, Call.player_load 11,
                Call.player_play 1] }
          pc := MainPc.cond_wait_timeout
          notify_mutex_held := false
          next_timeout := 100 } ∧
    (Loop.run (schedule_first_end ++ [Action.main_step provider_abc, Action.cb_end_of_track])
        loop_start).map (fun l => l.globals.g_playback_done) = some 1 := by
  decide

end Jukebox
